import Mathlib

/-!
Verification of the JSDataLinker wrapper library (src/index.js, src/firebase/).

The repository wraps an external backend platform (authentication service,
document store, realtime database) in CRUD-style helper classes.  This file
gives a shallow embedding of the wrapper classes:

* JavaScript values are modelled by the inductive `JSVal` (with a dedicated
  constructor for `undefined`, since `RealTime.create` tests for it, and for
  `NaN`, which the Firestore wrapper uses as a placeholder payload).
* Each collaborator call that can reject is modelled by an explicit
  `Except String` outcome parameter (the `String` is the message of the
  thrown error), or, for the document store, by an explicit store state.
* A method with a `try`/`catch` returns a plain value; a method without one
  returns `Except String _`, where `Except.error` is an exception that
  propagates (a rejected promise).
* The document store state `FsState` maps (collection path, document id)
  keys to stored values; its auto-generated document ids are determinised
  by a counter (the SDK draws random ids; only freshness matters here).
  SDK-side argument validation (for instance that document ids are
  non-empty and contain no slash) is not modelled; theorems that need it
  take non-emptiness hypotheses instead.
-/

/-- A JavaScript value, as stored and returned by the wrapper methods. -/
inductive JSVal where
  | undefined
  | null
  | bool (b : Bool)
  | num (n : Int)
  | nan
  | str (s : String)
  | arr (elems : List JSVal)
  | obj (fields : List (String × JSVal))
deriving Repr

mutual

/-- Structural (deep, by value on all fields) equality test on `JSVal`. -/
def JSVal.beq : JSVal → JSVal → Bool
  | .undefined, .undefined => true
  | .null, .null => true
  | .bool a, .bool b => a == b
  | .num a, .num b => a == b
  | .nan, .nan => true
  | .str a, .str b => a == b
  | .arr a, .arr b => JSVal.beqList a b
  | .obj a, .obj b => JSVal.beqFields a b
  | _, _ => false

/-- Elementwise structural equality on arrays. -/
def JSVal.beqList : List JSVal → List JSVal → Bool
  | [], [] => true
  | x :: xs, y :: ys => JSVal.beq x y && JSVal.beqList xs ys
  | _, _ => false

/-- Fieldwise structural equality on objects (field order included). -/
def JSVal.beqFields : List (String × JSVal) → List (String × JSVal) → Bool
  | [], [] => true
  | (k, v) :: xs, (l, w) :: ys => k == l && JSVal.beq v w && JSVal.beqFields xs ys
  | _, _ => false

end

mutual

theorem JSVal.beq_refl : (v : JSVal) → JSVal.beq v v = true
  | .undefined => rfl
  | .null => rfl
  | .bool b => by simp [JSVal.beq]
  | .num n => by simp [JSVal.beq]
  | .nan => rfl
  | .str s => by simp [JSVal.beq]
  | .arr xs => by simpa [JSVal.beq] using JSVal.beqList_refl xs
  | .obj fs => by simpa [JSVal.beq] using JSVal.beqFields_refl fs

theorem JSVal.beqList_refl : (xs : List JSVal) → JSVal.beqList xs xs = true
  | [] => rfl
  | x :: xs => by simp [JSVal.beqList, JSVal.beq_refl x, JSVal.beqList_refl xs]

theorem JSVal.beqFields_refl : (fs : List (String × JSVal)) → JSVal.beqFields fs fs = true
  | [] => rfl
  | (k, v) :: fs => by simp [JSVal.beqFields, JSVal.beq_refl v, JSVal.beqFields_refl fs]

end

mutual

theorem JSVal.beq_sound : (a b : JSVal) → JSVal.beq a b = true → a = b
  | .undefined, b, h => by cases b <;> first | rfl | exact absurd h (by simp [JSVal.beq])
  | .null, b, h => by cases b <;> first | rfl | exact absurd h (by simp [JSVal.beq])
  | .bool x, b, h => by
      cases b <;> simp [JSVal.beq] at h
      case bool y => simp [h]
  | .num x, b, h => by
      cases b <;> simp [JSVal.beq] at h
      case num y => simp [h]
  | .nan, b, h => by cases b <;> first | rfl | exact absurd h (by simp [JSVal.beq])
  | .str x, b, h => by
      cases b <;> simp [JSVal.beq] at h
      case str y => simp [h]
  | .arr xs, b, h => by
      cases b <;> simp [JSVal.beq] at h
      case arr ys => exact congrArg JSVal.arr (JSVal.beqList_sound xs ys h)
  | .obj fs, b, h => by
      cases b <;> simp [JSVal.beq] at h
      case obj gs => exact congrArg JSVal.obj (JSVal.beqFields_sound fs gs h)

theorem JSVal.beqList_sound : (xs ys : List JSVal) → JSVal.beqList xs ys = true → xs = ys
  | [], [], _ => rfl
  | [], _ :: _, h => by simp [JSVal.beqList] at h
  | _ :: _, [], h => by simp [JSVal.beqList] at h
  | x :: xs, y :: ys, h => by
      simp only [JSVal.beqList, Bool.and_eq_true] at h
      exact congrArg₂ List.cons (JSVal.beq_sound x y h.1) (JSVal.beqList_sound xs ys h.2)

theorem JSVal.beqFields_sound : (xs ys : List (String × JSVal)) → JSVal.beqFields xs ys = true → xs = ys
  | [], [], _ => rfl
  | [], _ :: _, h => by simp [JSVal.beqFields] at h
  | _ :: _, [], h => by simp [JSVal.beqFields] at h
  | (k, v) :: xs, (l, w) :: ys, h => by
      simp only [JSVal.beqFields, Bool.and_eq_true] at h
      have hk : k = l := by simpa using h.1.1
      have hv : v = w := JSVal.beq_sound v w h.1.2
      have ht : xs = ys := JSVal.beqFields_sound xs ys h.2
      simp [hk, hv, ht]

end

/-- First binding of a field name in an object field list (JavaScript property lookup). -/
def lookupField : List (String × JSVal) → String → Option JSVal
  | [], _ => none
  | e :: rest, k => if e.1 = k then some e.2 else lookupField rest k

/-- JavaScript object spread: the fields of the left object (values overridden by the
right object where both define a key) followed by the fields only the right object has. -/
def spreadFields (a b : List (String × JSVal)) : List (String × JSVal) :=
  (a.map (fun e => match lookupField b e.1 with | some v => (e.1, v) | none => e))
    ++ b.filter (fun e => (lookupField a e.1).isNone)

/-- True when the method result has the uniform outcome shape: a two-element
array whose first element is a boolean. -/
def isOutcomePair : JSVal → Bool
  | .arr [.bool _, _] => true
  | _ => false

/-!
## Authentication (src/firebase/AuthenticationModel.js)

Every method delegates one call to the auth collaborator.  The collaborator
call outcome is the explicit `Except String _` argument: `Except.ok` carries
the value the awaited call resolved to, `Except.error` the message of the
error it threw.  Methods whose body is wrapped in `try`/`catch` return a
plain `JSVal`; `verificationEmail` has no `try`/`catch` and passes the
collaborator outcome straight through.
-/

/-- Authentication.createUser (lines 20-27): [true, userRecord.uid] on success,
[false, error.message] on a thrown error. -/
def Authentication.createUser (callResult : Except String String) : JSVal :=
  match callResult with
  | .ok uid => .arr [.bool true, .str uid]
  | .error e => .arr [.bool false, .str e]

/-- Authentication.verificationEmail (lines 34-36): returns
auth.generateEmailVerificationLink(email) directly, with no try/catch,
so a rejection propagates to the caller unchanged. -/
def Authentication.verificationEmail (callResult : Except String String) : Except String String :=
  callResult

/-- Authentication.loginUser (lines 44-53): [true, userRecord.user.uid] on success,
[false, error.message] on a thrown error. -/
def Authentication.loginUser (callResult : Except String String) : JSVal :=
  match callResult with
  | .ok uid => .arr [.bool true, .str uid]
  | .error e => .arr [.bool false, .str e]

/-- Authentication.updateUser (lines 61-68): [true, userRecord.toJSON()] on success,
[false, error.message] on a thrown error. -/
def Authentication.updateUser (callResult : Except String JSVal) : JSVal :=
  match callResult with
  | .ok json => .arr [.bool true, json]
  | .error e => .arr [.bool false, .str e]

/-- Authentication.getUser (lines 75-82): [true, user] on success,
[false, error.message] on a thrown error. -/
def Authentication.getUser (callResult : Except String JSVal) : JSVal :=
  match callResult with
  | .ok user => .arr [.bool true, user]
  | .error e => .arr [.bool false, .str e]

/-- Authentication.deleteUser (lines 89-96): [true, uid] on success,
[false, error.message] on a thrown error. -/
def Authentication.deleteUser (uid : String) (callResult : Except String Unit) : JSVal :=
  match callResult with
  | .ok _ => .arr [.bool true, .str uid]
  | .error e => .arr [.bool false, .str e]

/-- Authentication.createPhoneVerification (lines 103-112): on success the method
returns the awaited createSessionCookie value itself, raw, without wrapping it
as [true, request]; on a thrown error it returns [false, error.message]. -/
def Authentication.createPhoneVerification (callResult : Except String JSVal) : JSVal :=
  match callResult with
  | .ok request => request
  | .error e => .arr [.bool false, .str e]

/-- Authentication.verifyPhoneVerification (lines 120-130): on success the method
returns the awaited verifySessionCookie value itself, raw; on a thrown error it
returns [false, error.message]. -/
def Authentication.verifyPhoneVerification (callResult : Except String JSVal) : JSVal :=
  match callResult with
  | .ok creds => creds
  | .error e => .arr [.bool false, .str e]

/-- Authentication.resetPassword (lines 137-144): on success the method returns
the awaited sendPasswordResetEmail value itself, raw; on a thrown error it
returns [false, error.message]. -/
def Authentication.resetPassword (callResult : Except String JSVal) : JSVal :=
  match callResult with
  | .ok request => request
  | .error e => .arr [.bool false, .str e]

/-- Authentication.getUsers (lines 150-172): listUsers resolves to the user
records (each modelled by its field list).  Inside the map the code constructs
`new Firestore(...)`, but AuthenticationModel.js never imports `Firestore`, so
that line throws a ReferenceError which the inner catch swallows, leaving
userData = error object for every user.  On success the method returns the
merged user array itself, raw, not wrapped as [true, users]; if listUsers
throws, it returns [false, error.message]. -/
def Authentication.getUsers (callResult : Except String (List (List (String × JSVal)))) : JSVal :=
  match callResult with
  | .ok users =>
      .arr (users.map (fun u => JSVal.obj (spreadFields u [("error", JSVal.str "No user data found")])))
  | .error e => .arr [.bool false, .str e]

/-!
## RealTime (src/firebase/RealTimeModel.js, lines 14-106)

The realtime-database reference held by an instance is modelled by the list
of (key, value) children stored under it, plus a counter determinising the
client-side keys that push() generates.  The outcome of the awaited SDK call
(set, get, remove) is the explicit `Except String Unit` argument; every
method catches a thrown error and converts it to [false, error.message].
-/

/-- Children stored under the RealTime reference, in enumeration order, plus
the push-id counter. -/
structure RtState where
  items : List (String × JSVal)
  counter : Nat
deriving Repr

/-- Key generated client-side by push() for the next new child. -/
def rtPushKey (n : Nat) : String := "push-id-" ++ toString n

/-- The guard of RealTime.create (line 33):
Object.values(data).some(value => value === undefined). -/
def hasUndefinedValue (data : List (String × JSVal)) : Bool :=
  data.any (fun e => JSVal.beq e.2 JSVal.undefined)

/-- Replace the value stored at a key, or append the binding if absent
(set on a child reference). -/
def rtSetItem : List (String × JSVal) → String → JSVal → List (String × JSVal)
  | [], id, v => [(id, v)]
  | e :: rest, id, v => if e.1 = id then (id, v) :: rtSetItem rest id v else e :: rtSetItem rest id v

/-- RealTime.create (lines 30-45): rejects data holding an undefined value
before touching the store; otherwise push() makes a fresh child reference and
set() writes the data there.  `setOutcome` is the outcome of the awaited
set() call; a thrown error is caught and returned as [false, error.message]
(push consumed the client-side key either way). -/
def RealTime.create (data : List (String × JSVal)) (st : RtState) (setOutcome : Except String Unit) :
    JSVal × RtState :=
  if hasUndefinedValue data then
    (.arr [.bool false, .str "Data contains undefined values"], st)
  else
    match setOutcome with
    | .ok _ =>
        (.arr [.bool true, .str (rtPushKey st.counter)],
          ⟨st.items ++ [(rtPushKey st.counter, JSVal.obj data)], st.counter + 1⟩)
    | .error e => (.arr [.bool false, .str e], ⟨st.items, st.counter + 1⟩)

/-- The object built for one child by RealTime.read (line 58):
{ id: childSnapshot.key, ...childSnapshot.val() }.  Spreading a non-object
value contributes no fields. -/
def rtChildObj (e : String × JSVal) : JSVal :=
  .obj (spreadFields [("id", JSVal.str e.1)]
    (match e.2 with | .obj fs => fs | _ => []))

/-- RealTime.read (lines 51-66): on success, [true, items] where items lists
one object per child in enumeration order; a thrown get() error is caught
and returned as [false, error.message]. -/
def RealTime.read (st : RtState) (getOutcome : Except String Unit) : JSVal :=
  match getOutcome with
  | .ok _ => .arr [.bool true, .arr (st.items.map rtChildObj)]
  | .error e => .arr [.bool false, .str e]

/-- RealTime.update (lines 74-86): set() on child(itemsRef, id) replaces the
data at that key; [true, true] on success, [false, error.message] on a
thrown error. -/
def RealTime.update (id : String) (newData : JSVal) (st : RtState) (setOutcome : Except String Unit) :
    JSVal × RtState :=
  match setOutcome with
  | .ok _ => (.arr [.bool true, .bool true], ⟨rtSetItem st.items id newData, st.counter⟩)
  | .error e => (.arr [.bool false, .str e], st)

/-- RealTime.delete (lines 93-105): remove() on child(itemsRef, id);
[true, true] on success, [false, error.message] on a thrown error. -/
def RealTime.delete (id : String) (st : RtState) (removeOutcome : Except String Unit) :
    JSVal × RtState :=
  match removeOutcome with
  | .ok _ => (.arr [.bool true, .bool true], ⟨st.items.filter (fun e => !(e.1 == id)), st.counter⟩)
  | .error e => (.arr [.bool false, .str e], st)

/-!
## Firestore (src/firebase/RealTimeModel.js, lines 113-214, the FirestoreModel class)

A firebase-admin reference is either a `CollectionReference` or a
`DocumentReference`; the two expose different methods.  `FsRef` keeps that
kind: `coll path` is a collection at the given segment path, `doc parent id`
a document `id` inside the collection at `parent`.  Each SDK operation below
is defined exactly on the reference kind that has it and raises a TypeError
(JavaScript method lookup on a missing property) on the other kind, since
the wrapper calls them without any dynamic check.
-/

/-- A firebase-admin reference, with its kind. -/
inductive FsRef where
  | coll (path : List String)
  | doc (parent : List String) (id : String)
deriving Repr, DecidableEq

/-- CollectionReference.doc(id): a document inside the collection.
DocumentReference has no doc method, so invoking it there is a TypeError. -/
def refDoc (r : FsRef) (id : String) : Except String FsRef :=
  match r with
  | .coll p => .ok (.doc p id)
  | .doc _ _ => .error "TypeError: reference.doc is not a function"

/-- DocumentReference.collection(name): a sub-collection beneath the document.
CollectionReference has no collection method. -/
def refCollection (r : FsRef) (name : String) : Except String FsRef :=
  match r with
  | .doc p id => .ok (.coll (p ++ [id, name]))
  | .coll _ => .error "TypeError: reference.collection is not a function"

/-- The loop of getNestedCollectionReference (lines 203-211): consume
nestedPaths two segments at a time, descending into document nestedPaths[i]
then sub-collection nestedPaths[i+1]; a dangling final segment is consumed
alone as a document id. -/
def descendLoop (r : FsRef) : List String → Except String FsRef
  | [] => .ok r
  | [d] => refDoc r d
  | d :: c :: rest =>
      match refDoc r d with
      | .error e => .error e
      | .ok r1 =>
          match refCollection r1 c with
          | .error e => .error e
          | .ok r2 => descendLoop r2 rest

/-- The configuration a Firestore wrapper instance holds (constructor,
lines 120-125): collection name, document uid, nested path segments.
The uid is `none` for JavaScript null or undefined. -/
structure Firestore where
  collectionName : String
  uid : Option String
  nestedPaths : List String
deriving Repr, DecidableEq

/-- Firestore.getNestedCollectionReference (lines 201-213): run the descent
loop from the base collection, then `uid ? collectionRef.doc(uid) :
collectionRef.doc()` — a falsy uid (null, undefined or the empty string)
selects doc() with the auto-generated id `fresh`. -/
def Firestore.getNestedCollectionReference (self : Firestore) (uid : Option String) (fresh : String) :
    Except String FsRef :=
  match descendLoop (FsRef.coll [self.collectionName]) self.nestedPaths with
  | .error e => .error e
  | .ok r =>
      match uid with
      | some u => if u = "" then refDoc r fresh else refDoc r u
      | none => refDoc r fresh

/-- The document-store contents: (collection path, document id) keys mapped
to stored values, in enumeration order. -/
abbrev FsDocs := List ((List String × String) × JSVal)

/-- The document-store state: contents plus the auto-generated-id counter. -/
structure FsState where
  docs : FsDocs
  counter : Nat

/-- The auto-generated document id assigned by doc() for counter value n. -/
def freshId (n : Nat) : String := "auto-id-" ++ toString n

/-- Value stored at a key (first binding in enumeration order). -/
def fsGet : FsDocs → (List String × String) → Option JSVal
  | [], _ => none
  | e :: rest, k => if e.1 = k then some e.2 else fsGet rest k

/-- Whether some binding has the key. -/
def fsHas : FsDocs → (List String × String) → Bool
  | [], _ => false
  | e :: rest, k => e.1 == k || fsHas rest k

/-- Overwrite every binding of the key with the new value. -/
def fsReplace : FsDocs → (List String × String) → JSVal → FsDocs
  | [], _, _ => []
  | e :: rest, k, v => (if e.1 = k then (k, v) else e) :: fsReplace rest k v

/-- DocumentReference.set: overwrite the binding if the key exists, append a
new binding at the end of the enumeration otherwise. -/
def fsSet (docs : FsDocs) (k : List String × String) (v : JSVal) : FsDocs :=
  if fsHas docs k then fsReplace docs k v else docs ++ [(k, v)]

/-- DocumentReference.delete: drop every binding of the key. -/
def fsRemove (docs : FsDocs) (k : List String × String) : FsDocs :=
  docs.filter (fun e => !(e.1 == k))

/-- The (id, value) children of a collection, in enumeration order. -/
def childEntries : FsDocs → List String → List (String × JSVal)
  | [], _ => []
  | e :: rest, cp => if e.1.1 = cp then (e.1.2, e.2) :: childEntries rest cp else childEntries rest cp

/-- First entry whose value is structurally equal to the record. -/
def firstMatch : List (String × JSVal) → JSVal → Option (String × JSVal)
  | [], _ => none
  | e :: rest, data => if JSVal.beq e.2 data then some e else firstMatch rest data

/-- Modelled from the spec: the helper utils/firebase/getDocumentIdByContent.js is
imported by the FirestoreModel class but is not among the repository sources.
Spec section 4.1, findIdByContent: given the reference the record was just written
through and the record, return the identifier of the document whose stored content
exactly equals the record, by value on all fields; when several sibling documents
hold identical content, the first match in the enumeration order of the parent
collection of the reference is returned (none if no document matches). -/
def getDocumentIdByContent (st : FsState) (docRef : FsRef) (data : JSVal) : Option String :=
  match docRef with
  | .doc parent _ => (firstMatch (childEntries st.docs parent) data).map Prod.fst
  | .coll p => (firstMatch (childEntries st.docs p) data).map Prod.fst

/-- The JavaScript value of the id found by getDocumentIdByContent
(undefined when nothing matched). -/
def jsOfFoundId : Option String → JSVal
  | some s => .str s
  | none => .undefined

/-- reference.set(data): defined on document references only. -/
def refSet (docs : FsDocs) (r : FsRef) (v : JSVal) : Except String FsDocs :=
  match r with
  | .doc parent id => .ok (fsSet docs (parent, id) v)
  | .coll _ => .error "TypeError: reference.set is not a function"

/-- reference.get() then snapshot.exists and snapshot.data(), on a document
reference: the stored value when the document exists. -/
def refGet (docs : FsDocs) (r : FsRef) : Except String (Option JSVal) :=
  match r with
  | .doc parent id => .ok (fsGet docs (parent, id))
  | .coll _ => .error "TypeError: snapshot.exists is not usable on a query snapshot"

/-- Shallow merge performed by DocumentReference.update on the stored value
(field paths with dots are not modelled; no claim inspects merged content). -/
def mergeVals (old new : JSVal) : JSVal :=
  match old, new with
  | .obj a, .obj b => .obj (spreadFields a b)
  | _, _ => new

/-- reference.update(data): rejects with NOT_FOUND when the document does not
exist, merges into the stored value otherwise; document references only. -/
def refUpdate (docs : FsDocs) (r : FsRef) (v : JSVal) : Except String FsDocs :=
  match r with
  | .doc parent id =>
      match fsGet docs (parent, id) with
      | none => .error "NOT_FOUND: No document to update"
      | some old => .ok (fsSet docs (parent, id) (mergeVals old v))
  | .coll _ => .error "TypeError: reference.update is not a function"

/-- reference.delete(): document references only. -/
def refDelete (docs : FsDocs) (r : FsRef) : Except String FsDocs :=
  match r with
  | .doc parent id => .ok (fsRemove docs (parent, id))
  | .coll _ => .error "TypeError: reference.delete is not a function"

/-- reference.listDocuments(): a CollectionReference method listing the full
segment paths of the immediate child documents; DocumentReference has no
listDocuments, so invoking it there is a TypeError. -/
def refListDocuments (docs : FsDocs) (r : FsRef) : Except String (List (List String)) :=
  match r with
  | .coll p => .ok ((childEntries docs p).map (fun e => p ++ [e.1]))
  | .doc _ _ => .error "TypeError: reference.listDocuments is not a function"

/-- Firestore.create (lines 132-137): resolve a reference with no id (so with
an auto-generated document id), set the data there, then look the id up by
content; no try/catch, so a thrown error propagates.  Returns [true, docID]
and the updated store. -/
def Firestore.create (self : Firestore) (st : FsState) (data : JSVal) :
    Except String ((Bool × JSVal) × FsState) :=
  match self.getNestedCollectionReference none (freshId st.counter) with
  | .error e => .error e
  | .ok docRef =>
      match refSet st.docs docRef data with
      | .error e => .error e
      | .ok docs1 =>
          let st1 : FsState := ⟨docs1, st.counter + 1⟩
          .ok ((true, jsOfFoundId (getDocumentIdByContent st1 docRef data)), st1)

/-- Firestore.read (lines 143-149): resolve with this.uid, get the snapshot;
[false, "Document does not exist"] when absent, [true, data] otherwise;
no try/catch. -/
def Firestore.read (self : Firestore) (st : FsState) : Except String (Bool × JSVal) :=
  match self.getNestedCollectionReference self.uid (freshId st.counter) with
  | .error e => .error e
  | .ok docRef =>
      match refGet st.docs docRef with
      | .error e => .error e
      | .ok none => .ok (false, .str "Document does not exist")
      | .ok (some v) => .ok (true, v)

/-- Firestore.update (lines 156-159): resolve with this.uid and update;
[true, NaN] on success; no try/catch, so the NOT_FOUND rejection of the
collaborator propagates. -/
def Firestore.update (self : Firestore) (st : FsState) (data : JSVal) :
    Except String ((Bool × JSVal) × FsState) :=
  match self.getNestedCollectionReference self.uid (freshId st.counter) with
  | .error e => .error e
  | .ok docRef =>
      match refUpdate st.docs docRef data with
      | .error e => .error e
      | .ok docs1 => .ok ((true, JSVal.nan), ⟨docs1, st.counter⟩)

/-- Firestore.delete (lines 165-168): resolve with this.uid and delete;
[true, NaN] on success; no try/catch. -/
def Firestore.delete (self : Firestore) (st : FsState) :
    Except String ((Bool × JSVal) × FsState) :=
  match self.getNestedCollectionReference self.uid (freshId st.counter) with
  | .error e => .error e
  | .ok docRef =>
      match refDelete st.docs docRef with
      | .error e => .error e
      | .ok docs1 => .ok ((true, JSVal.nan), ⟨docs1, st.counter⟩)

/-- Firestore.readPaths (lines 174-178): getNestedCollectionReference() with no
argument (hence a document reference with an auto id), then listDocuments()
on it and doc.path.split("/")[1] for each result; no try/catch. -/
def Firestore.readPaths (self : Firestore) (st : FsState) : Except String (Bool × List String) :=
  match self.getNestedCollectionReference none (freshId st.counter) with
  | .error e => .error e
  | .ok r =>
      match refListDocuments st.docs r with
      | .error e => .error e
      | .ok docPaths => .ok (true, docPaths.map (fun p => p.getD 1 ""))

/-- The loop of Firestore.readAll (lines 188-192): for each discovered path a
fresh instance new Firestore(collectionName, path) is built (nestedPaths not
forwarded) and its read() awaited; a rejection propagates. -/
def readAllLoop (collectionName : String) (st : FsState) :
    List String → Except String (List (String × JSVal))
  | [] => .ok []
  | p :: rest =>
      match Firestore.read ⟨collectionName, some p, []⟩ st with
      | .error e => .error e
      | .ok snap =>
          match readAllLoop collectionName st rest with
          | .error e => .error e
          | .ok restDocs => .ok ((p, snap.2) :: restDocs)

/-- Firestore.readAll (lines 184-194): readPaths, then one read per path,
collected into an object keyed by path; no try/catch. -/
def Firestore.readAll (self : Firestore) (st : FsState) : Except String (Bool × JSVal) :=
  match self.readPaths st with
  | .error e => .error e
  | .ok pr =>
      match readAllLoop self.collectionName st pr.2 with
      | .error e => .error e
      | .ok allDocs => .ok (true, JSVal.obj allDocs)

/-- Flatten a list of (document id, sub-collection name) pairs into the
nestedPaths segment list they stand for. -/
def flatPairs : List (String × String) → List String
  | [] => []
  | p :: ps => p.1 :: p.2 :: flatPairs ps

/-!
## Helper lemmas about the descent loop and the store
-/

theorem flatPairs_length (ps : List (String × String)) : (flatPairs ps).length = 2 * ps.length := by
  induction ps with
  | nil => simp [flatPairs]
  | cons p ps ih => simp [flatPairs, ih]; omega

theorem descendLoop_flatPairs (ps : List (String × String)) (base : List String) :
    descendLoop (FsRef.coll base) (flatPairs ps) = .ok (.coll (base ++ flatPairs ps)) := by
  induction ps generalizing base with
  | nil => simp [flatPairs, descendLoop]
  | cons p ps ih =>
      simp only [flatPairs, descendLoop, refDoc, refCollection]
      rw [ih (base ++ [p.1, p.2])]
      simp

theorem descendLoop_flatPairs_concat (ps : List (String × String)) (d : String) (base : List String) :
    descendLoop (FsRef.coll base) (flatPairs ps ++ [d]) = .ok (.doc (base ++ flatPairs ps) d) := by
  induction ps generalizing base with
  | nil => simp [flatPairs, descendLoop, refDoc]
  | cons p ps ih =>
      have hsplit : flatPairs (p :: ps) ++ [d] = p.1 :: p.2 :: (flatPairs ps ++ [d]) := by
        simp [flatPairs]
      rw [hsplit]
      simp only [descendLoop, refDoc, refCollection]
      rw [ih (base ++ [p.1, p.2])]
      simp [flatPairs]

theorem getNCR_even_truthy (cn : String) (uid0 : Option String) (ps : List (String × String))
    (u fresh : String) (h : u ≠ "") :
    Firestore.getNestedCollectionReference ⟨cn, uid0, flatPairs ps⟩ (some u) fresh
      = .ok (.doc (cn :: flatPairs ps) u) := by
  simp only [Firestore.getNestedCollectionReference, descendLoop_flatPairs ps [cn]]
  simp [refDoc, h]

theorem getNCR_even_auto (cn : String) (uid0 : Option String) (ps : List (String × String))
    (fresh : String) :
    Firestore.getNestedCollectionReference ⟨cn, uid0, flatPairs ps⟩ none fresh
      = .ok (.doc (cn :: flatPairs ps) fresh) := by
  simp only [Firestore.getNestedCollectionReference, descendLoop_flatPairs ps [cn]]
  simp [refDoc]

theorem freshId_ne_empty (n : Nat) : freshId n ≠ "" := by
  intro h
  have hl : (freshId n).length = 0 := by rw [h]; rfl
  rw [freshId, String.length_append] at hl
  have h8 : ("auto-id-" : String).length = 8 := by decide
  omega

theorem fsHas_false_fst (docs : FsDocs) (k : List String × String) (h : fsHas docs k = false) :
    k ∉ docs.map Prod.fst := by
  induction docs with
  | nil => simp
  | cons e rest ih =>
      simp only [fsHas, Bool.or_eq_false_iff, beq_eq_false_iff_ne, ne_eq] at h
      simp only [List.map_cons, List.mem_cons]
      rintro (rfl | hm)
      · exact h.1 rfl
      · exact ih h.2 hm

theorem fsReplace_map_fst (docs : FsDocs) (k : List String × String) (v : JSVal) :
    (fsReplace docs k v).map Prod.fst = docs.map Prod.fst := by
  induction docs with
  | nil => rfl
  | cons e rest ih =>
      by_cases he : e.1 = k
      · simp [fsReplace, he, ih]
      · simp [fsReplace, he, ih]

theorem mem_fsReplace_self (docs : FsDocs) (k : List String × String) (v : JSVal)
    (h : fsHas docs k = true) : (k, v) ∈ fsReplace docs k v := by
  induction docs with
  | nil => simp [fsHas] at h
  | cons e rest ih =>
      simp only [fsHas, Bool.or_eq_true, beq_iff_eq] at h
      by_cases he : e.1 = k
      · simp [fsReplace, he]
      · have hr : fsHas rest k = true := by
          rcases h with h | h
          · exact absurd h he
          · exact h
        simp [fsReplace, he, ih hr]

theorem mem_fsSet_self (docs : FsDocs) (k : List String × String) (v : JSVal) :
    (k, v) ∈ fsSet docs k v := by
  unfold fsSet
  by_cases h : fsHas docs k = true
  · rw [if_pos h]
    exact mem_fsReplace_self docs k v h
  · rw [if_neg h]
    exact List.mem_append_right _ (List.mem_singleton.mpr rfl)

theorem fsSet_map_fst_nodup (docs : FsDocs) (k : List String × String) (v : JSVal)
    (hnd : (docs.map Prod.fst).Nodup) : ((fsSet docs k v).map Prod.fst).Nodup := by
  unfold fsSet
  by_cases h : fsHas docs k = true
  · rw [if_pos h, fsReplace_map_fst]
    exact hnd
  · rw [if_neg h]
    have hk : k ∉ docs.map Prod.fst := fsHas_false_fst docs k (by simpa using h)
    rw [List.map_append]
    simp only [List.map_cons, List.map_nil]
    refine List.Nodup.append hnd (List.nodup_singleton k) ?_
    intro a ha hb
    rw [List.mem_singleton] at hb
    exact hk (hb ▸ ha)

theorem mem_of_mem_fsReplace (docs : FsDocs) (k : List String × String) (v : JSVal)
    (e : (List String × String) × JSVal) (h : e ∈ fsReplace docs k v) :
    e ∈ docs ∨ e = (k, v) := by
  induction docs with
  | nil => simp [fsReplace] at h
  | cons f rest ih =>
      by_cases hf : f.1 = k
      · simp only [fsReplace, hf, if_true, List.mem_cons] at h
        rcases h with h | h
        · right; exact h
        · rcases ih h with h | h
          · left; exact List.mem_cons_of_mem f h
          · right; exact h
      · simp only [fsReplace, hf, if_false, List.mem_cons] at h
        rcases h with h | h
        · left; simp [h]
        · rcases ih h with h | h
          · left; exact List.mem_cons_of_mem f h
          · right; exact h

theorem mem_of_mem_fsSet (docs : FsDocs) (k : List String × String) (v : JSVal)
    (e : (List String × String) × JSVal) (h : e ∈ fsSet docs k v) :
    e ∈ docs ∨ e = (k, v) := by
  unfold fsSet at h
  by_cases hh : fsHas docs k = true
  · rw [if_pos hh] at h
    exact mem_of_mem_fsReplace docs k v e h
  · rw [if_neg hh] at h
    simpa [List.mem_append] using h

theorem fsGet_mem_nodup (docs : FsDocs) (k : List String × String) (v : JSVal)
    (hnd : (docs.map Prod.fst).Nodup) (hm : (k, v) ∈ docs) : fsGet docs k = some v := by
  induction docs with
  | nil => simp at hm
  | cons e rest ih =>
      simp only [List.map_cons, List.nodup_cons] at hnd
      rcases List.mem_cons.mp hm with h | h
      · simp [fsGet, ← h]
      · have hne : e.1 ≠ k := by
          intro hk
          exact hnd.1 (hk ▸ (List.mem_map_of_mem Prod.fst h))
        simp [fsGet, hne, ih hnd.2 h]

theorem fsGet_fsRemove_self (docs : FsDocs) (k : List String × String) :
    fsGet (fsRemove docs k) k = none := by
  induction docs with
  | nil => rfl
  | cons e rest ih =>
      by_cases he : e.1 = k
      · simpa [fsRemove, he] using ih
      · simpa [fsRemove, fsGet, he] using ih

theorem fsGet_fsReplace_ne (docs : FsDocs) (k k2 : List String × String) (v : JSVal)
    (h : k2 ≠ k) : fsGet (fsReplace docs k v) k2 = fsGet docs k2 := by
  induction docs with
  | nil => rfl
  | cons e rest ih =>
      have hk : ¬(k = k2) := fun hk2 => h hk2.symm
      show fsGet ((if e.1 = k then (k, v) else e) :: fsReplace rest k v) k2 = fsGet (e :: rest) k2
      by_cases he : e.1 = k
      · rw [if_pos he]
        have he2 : ¬(e.1 = k2) := by rw [he]; exact hk
        simp [fsGet, hk, he2, ih]
      · rw [if_neg he]
        by_cases he2 : e.1 = k2
        · simp [fsGet, he2]
        · simp [fsGet, he2, ih]

theorem fsGet_append_single_ne (docs : FsDocs) (k k2 : List String × String) (v : JSVal)
    (h : k2 ≠ k) : fsGet (docs ++ [(k, v)]) k2 = fsGet docs k2 := by
  induction docs with
  | nil =>
      have hk : ¬(k = k2) := fun hk => h hk.symm
      simp [fsGet, hk]
  | cons e rest ih =>
      by_cases he : e.1 = k2
      · simp [fsGet, he]
      · simp [fsGet, he, ih]

theorem fsGet_fsSet_ne (docs : FsDocs) (k k2 : List String × String) (v : JSVal)
    (h : k2 ≠ k) : fsGet (fsSet docs k v) k2 = fsGet docs k2 := by
  unfold fsSet
  by_cases hh : fsHas docs k = true
  · rw [if_pos hh]
    exact fsGet_fsReplace_ne docs k k2 v h
  · rw [if_neg hh]
    exact fsGet_append_single_ne docs k k2 v h

theorem mem_childEntries_iff (docs : FsDocs) (cp : List String) (id : String) (v : JSVal) :
    (id, v) ∈ childEntries docs cp ↔ ((cp, id), v) ∈ docs := by
  induction docs with
  | nil => simp [childEntries]
  | cons e rest ih =>
      by_cases he : e.1.1 = cp
      · simp only [childEntries, he, if_true, List.mem_cons, ih]
        constructor
        · rintro (h | h)
          · left
            have : e = ((cp, id), v) := by
              obtain ⟨⟨p1, p2⟩, w⟩ := e
              simp only at he
              simp only [Prod.mk.injEq] at h ⊢
              exact ⟨⟨he.symm ▸ rfl, h.1.symm⟩, h.2.symm⟩
            simp [this]
          · right; exact h
        · rintro (h | h)
          · left; simp [← h]
          · right; exact h
      · simp only [childEntries, he, if_false, ih, List.mem_cons]
        constructor
        · intro h; right; exact h
        · rintro (h | h)
          · exact absurd (congrArg (fun x => x.1.1) h).symm he
          · exact h

theorem firstMatch_eq_some (l : List (String × JSVal)) (data : JSVal) (e : String × JSVal)
    (h : firstMatch l data = some e) : e ∈ l ∧ JSVal.beq e.2 data = true := by
  induction l with
  | nil => simp [firstMatch] at h
  | cons f rest ih =>
      by_cases hf : JSVal.beq f.2 data = true
      · simp only [firstMatch, hf, if_true, Option.some.injEq] at h
        exact ⟨by simp [← h], by rw [← h]; exact hf⟩
      · simp only [firstMatch, hf, if_false] at h
        obtain ⟨hm, hb⟩ := ih h
        exact ⟨List.mem_cons_of_mem f hm, hb⟩

theorem firstMatch_isSome_of_mem (l : List (String × JSVal)) (data : JSVal)
    (e : String × JSVal) (hm : e ∈ l) (hb : JSVal.beq e.2 data = true) :
    ∃ e2, firstMatch l data = some e2 := by
  induction l with
  | nil => simp at hm
  | cons f rest ih =>
      by_cases hf : JSVal.beq f.2 data = true
      · exact ⟨f, by simp [firstMatch, hf]⟩
      · rcases List.mem_cons.mp hm with h | h
        · exact absurd (h ▸ hb) hf
        · obtain ⟨e2, he2⟩ := ih h
          exact ⟨e2, by simp [firstMatch, hf, he2]⟩

/-- Unfolding of Firestore.create on an instance with pair-structured
nestedPaths: the write goes through the resolved collection path at the
auto-generated id, and the reported id comes from the content lookup. -/
theorem firestore_create_unfold (cn : String) (uid0 : Option String)
    (ps : List (String × String)) (st : FsState) (data : JSVal) :
    Firestore.create ⟨cn, uid0, flatPairs ps⟩ st data
      = .ok ((true, jsOfFoundId (getDocumentIdByContent
            ⟨fsSet st.docs (cn :: flatPairs ps, freshId st.counter) data, st.counter + 1⟩
            (.doc (cn :: flatPairs ps) (freshId st.counter)) data)),
          ⟨fsSet st.docs (cn :: flatPairs ps, freshId st.counter) data, st.counter + 1⟩) := by
  simp only [Firestore.create, getNCR_even_auto cn uid0 ps (freshId st.counter), refSet]

/-- After the write of Firestore.create, the content lookup finds a first
match: its value is the written record, the store holds the record at the
matched id, and the matched id is either the fresh auto-generated one or the
id of a pre-existing document. -/
theorem create_finds_match (cn : String) (ps : List (String × String)) (st : FsState)
    (data : JSVal) (hnd : (st.docs.map Prod.fst).Nodup) :
    ∃ (id : String) (v : JSVal),
      firstMatch (childEntries (fsSet st.docs (cn :: flatPairs ps, freshId st.counter) data)
          (cn :: flatPairs ps)) data = some (id, v)
      ∧ v = data
      ∧ fsGet (fsSet st.docs (cn :: flatPairs ps, freshId st.counter) data)
          (cn :: flatPairs ps, id) = some data
      ∧ (((cn :: flatPairs ps, id), v) ∈ st.docs ∨ id = freshId st.counter) := by
  have hmem1 : ((cn :: flatPairs ps, freshId st.counter), data)
      ∈ fsSet st.docs (cn :: flatPairs ps, freshId st.counter) data := mem_fsSet_self _ _ _
  have hce1 : (freshId st.counter, data)
      ∈ childEntries (fsSet st.docs (cn :: flatPairs ps, freshId st.counter) data)
          (cn :: flatPairs ps) := (mem_childEntries_iff _ _ _ _).mpr hmem1
  obtain ⟨⟨id2, v2⟩, he2⟩ :=
    firstMatch_isSome_of_mem _ data (freshId st.counter, data) hce1 (JSVal.beq_refl data)
  obtain ⟨hmem2, hbeq2⟩ := firstMatch_eq_some _ data (id2, v2) he2
  have hveq : v2 = data := JSVal.beq_sound _ _ hbeq2
  have hdocmem : ((cn :: flatPairs ps, id2), v2)
      ∈ fsSet st.docs (cn :: flatPairs ps, freshId st.counter) data :=
    (mem_childEntries_iff _ _ id2 v2).mp hmem2
  have hnd1 := fsSet_map_fst_nodup st.docs (cn :: flatPairs ps, freshId st.counter) data hnd
  have hget := fsGet_mem_nodup _ _ _ hnd1 hdocmem
  refine ⟨id2, v2, he2, hveq, by rw [hget, hveq], ?_⟩
  rcases mem_of_mem_fsSet _ _ _ _ hdocmem with hmem | heq
  · left; exact hmem
  · right; exact congrArg (fun x => x.1.2) heq

/-- Claim C3: for every even-length nestedPaths sequence — the flattening of a
list of (document id, sub-collection name) pairs — the descent loop of
getNestedCollectionReference succeeds, walking exactly length/2 pairs in order
from root to leaf (each pair descends into the document and then the
sub-collection, extending the reference path by precisely those segments),
and the method then returns the reference to the document named by the given
uid, or to one carrying the auto-generated id when the uid is absent. -/
theorem c3_even_path_resolution (cn u fresh : String) (uid0 : Option String)
    (ps : List (String × String)) (h : u ≠ "") :
    descendLoop (FsRef.coll [cn]) (flatPairs ps) = .ok (.coll (cn :: flatPairs ps))
    ∧ (flatPairs ps).length = 2 * ps.length
    ∧ Firestore.getNestedCollectionReference ⟨cn, uid0, flatPairs ps⟩ (some u) fresh
        = .ok (.doc (cn :: flatPairs ps) u)
    ∧ Firestore.getNestedCollectionReference ⟨cn, uid0, flatPairs ps⟩ none fresh
        = .ok (.doc (cn :: flatPairs ps) fresh) :=
  ⟨by simpa using descendLoop_flatPairs ps [cn], flatPairs_length ps,
    getNCR_even_truthy cn uid0 ps u fresh h, getNCR_even_auto cn uid0 ps fresh⟩

/-- Witness for C3, the scenario of spec section 8: collection "users", nested
path ["userA", "orders"], target id "order1" resolves to the document at
users/userA/orders/order1; with no target id the auto-generated id is used. -/
theorem c3_even_path_resolution_witness :
    descendLoop (FsRef.coll ["users"]) (flatPairs [("userA", "orders")])
      = .ok (.coll ("users" :: flatPairs [("userA", "orders")]))
    ∧ (flatPairs [("userA", "orders")]).length = 2 * [("userA", "orders")].length
    ∧ Firestore.getNestedCollectionReference ⟨"users", none, flatPairs [("userA", "orders")]⟩
        (some "order1") "auto-id-0"
        = .ok (.doc ("users" :: flatPairs [("userA", "orders")]) "order1")
    ∧ Firestore.getNestedCollectionReference ⟨"users", none, flatPairs [("userA", "orders")]⟩
        none "auto-id-0"
        = .ok (.doc ("users" :: flatPairs [("userA", "orders")]) "auto-id-0") :=
  c3_even_path_resolution "users" "order1" "auto-id-0" none [("userA", "orders")] (by decide)

/-- Claim C4: for every odd-length nestedPaths sequence — complete pairs plus
one dangling segment — the descent loop treats the final unpaired segment as a
terminal document id: after walking the complete (document id, sub-collection)
pairs it descends into that single document id only, ending on a document
reference whose id is that segment. -/
theorem c4_odd_path_resolution (cn d : String) (ps : List (String × String)) :
    descendLoop (FsRef.coll [cn]) (flatPairs ps ++ [d]) = .ok (.doc (cn :: flatPairs ps) d)
    ∧ (flatPairs ps ++ [d]).length % 2 = 1 := by
  constructor
  · simpa using descendLoop_flatPairs_concat ps d [cn]
  · simp only [List.length_append, flatPairs_length, List.length_singleton]
    omega

/-- Claim C7: on an instance addressing a stored document id (a real id, hence
non-empty), delete followed by read on the same id yields the not-found
outcome [false, "Document does not exist"]. -/
theorem c7_delete_then_read (cn u : String) (ps : List (String × String)) (st : FsState)
    (hu : u ≠ "") :
    ∃ st1, Firestore.delete ⟨cn, some u, flatPairs ps⟩ st = .ok ((true, JSVal.nan), st1)
      ∧ Firestore.read ⟨cn, some u, flatPairs ps⟩ st1
          = .ok (false, .str "Document does not exist") := by
  refine ⟨⟨fsRemove st.docs (cn :: flatPairs ps, u), st.counter⟩, ?_, ?_⟩
  · simp only [Firestore.delete, getNCR_even_truthy cn (some u) ps u (freshId st.counter) hu,
      refDelete]
  · simp only [Firestore.read, getNCR_even_truthy cn (some u) ps u (freshId st.counter) hu,
      refGet, fsGet_fsRemove_self]

/-- Witness for C7: deleting the stored document users/u1 and re-reading it. -/
theorem c7_delete_then_read_witness :
    ∃ st1, Firestore.delete ⟨"users", some "u1", flatPairs []⟩
        ⟨[((["users"], "u1"), JSVal.str "x")], 0⟩ = .ok ((true, JSVal.nan), st1)
      ∧ Firestore.read ⟨"users", some "u1", flatPairs []⟩ st1
          = .ok (false, .str "Document does not exist") :=
  c7_delete_then_read "users" "u1" [] ⟨[((["users"], "u1"), JSVal.str "x")], 0⟩ (by decide)

/-- Claim C9: when some top-level value of the data object is undefined,
RealTime.create returns [false, "Data contains undefined values"] and performs
no write: the store state (children and push counter) is returned unchanged,
whatever the collaborator outcome would have been. -/
theorem c9_undefined_value_guard (data : List (String × JSVal)) (st : RtState)
    (setOutcome : Except String Unit) (h : ∃ kv, kv ∈ data ∧ kv.2 = JSVal.undefined) :
    RealTime.create data st setOutcome
      = (.arr [.bool false, .str "Data contains undefined values"], st) := by
  obtain ⟨kv, hm, hv⟩ := h
  have hguard : hasUndefinedValue data = true := by
    apply List.any_eq_true.mpr
    exact ⟨kv, hm, by rw [hv]; rfl⟩
  simp [RealTime.create, hguard]

/-- Witness for C9: data with the undefined value at key b is rejected and the
store (one existing child, counter 4) is untouched. -/
theorem c9_undefined_value_guard_witness :
    RealTime.create [("a", JSVal.num 1), ("b", JSVal.undefined)]
        ⟨[("k0", JSVal.null)], 4⟩ (.ok ())
      = (.arr [.bool false, .str "Data contains undefined values"], ⟨[("k0", JSVal.null)], 4⟩) :=
  c9_undefined_value_guard [("a", JSVal.num 1), ("b", JSVal.undefined)] ⟨[("k0", JSVal.null)], 4⟩
    (.ok ()) ⟨("b", JSVal.undefined), List.mem_cons_of_mem _ (List.mem_cons_self _ _), rfl⟩

/-- Claim C6: create(record) followed by read() on an instance addressing the
id returned by create yields the record that was written.  The store is
assumed well-formed: one binding per key and real (non-empty) document ids. -/
theorem c6_create_then_read (cn : String) (ps : List (String × String)) (st : FsState)
    (data : JSVal) (hnd : (st.docs.map Prod.fst).Nodup)
    (hids : ∀ e ∈ st.docs, e.1.2 ≠ "") :
    ∃ (id : String) (st1 : FsState),
      Firestore.create ⟨cn, none, flatPairs ps⟩ st data = .ok ((true, JSVal.str id), st1)
      ∧ Firestore.read ⟨cn, some id, flatPairs ps⟩ st1 = .ok (true, data) := by
  obtain ⟨id, v, hfm, hveq, hget, hsrc⟩ := create_finds_match cn ps st data hnd
  have hidne : id ≠ "" := by
    rcases hsrc with hmem | hfresh
    · exact hids _ hmem
    · rw [hfresh]; exact freshId_ne_empty st.counter
  refine ⟨id, ⟨fsSet st.docs (cn :: flatPairs ps, freshId st.counter) data, st.counter + 1⟩,
    ?_, ?_⟩
  · rw [firestore_create_unfold cn none ps st data]
    simp only [getDocumentIdByContent, hfm, Option.map_some', jsOfFoundId]
  · simp only [Firestore.read,
      getNCR_even_truthy cn (some id) ps id (freshId (st.counter + 1)) hidne, refGet, hget]

/-- Witness for C6: a fresh store, the record obj with name john; create then
read on the reported id returns the record. -/
theorem c6_create_then_read_witness :
    ∃ (id : String) (st1 : FsState),
      Firestore.create ⟨"users", none, flatPairs []⟩ ⟨[], 0⟩
          (JSVal.obj [("name", JSVal.str "john")])
        = .ok ((true, JSVal.str id), st1)
      ∧ Firestore.read ⟨"users", some id, flatPairs []⟩ st1
          = .ok (true, JSVal.obj [("name", JSVal.str "john")]) :=
  c6_create_then_read "users" [] ⟨[], 0⟩ (JSVal.obj [("name", JSVal.str "john")])
    (by simp) (by simp)

/-- Claim C5 (the lookup helper getDocumentIdByContent is modelled from the
spec, its source file being absent): for a record just written by create, the
content lookup returns the id of a document whose stored content is
structurally equal — in fact equal — to that record, and that id is the first
match in the enumeration order of the parent collection; when a sibling
already holds identical content the first match wins, so the id reported for
a record identical to the pre-existing document dup-1 is dup-1, not the
freshly created auto-id-5 document. -/
theorem c5_find_id_by_content (cn : String) (ps : List (String × String)) (st : FsState)
    (data : JSVal) (hnd : (st.docs.map Prod.fst).Nodup) :
    (∃ (id : String) (st1 : FsState),
        Firestore.create ⟨cn, none, flatPairs ps⟩ st data = .ok ((true, JSVal.str id), st1)
        ∧ getDocumentIdByContent st1 (.doc (cn :: flatPairs ps) (freshId st.counter)) data
            = some id
        ∧ (∃ v, firstMatch (childEntries st1.docs (cn :: flatPairs ps)) data = some (id, v)
            ∧ v = data)
        ∧ fsGet st1.docs (cn :: flatPairs ps, id) = some data)
    ∧ Firestore.create ⟨"users", none, []⟩ ⟨[((["users"], "dup-1"), JSVal.str "x")], 5⟩
        (JSVal.str "x")
      = .ok ((true, JSVal.str "dup-1"),
          ⟨[((["users"], "dup-1"), JSVal.str "x"), ((["users"], "auto-id-5"), JSVal.str "x")],
            6⟩) := by
  constructor
  · obtain ⟨id, v, hfm, hveq, hget, hsrc⟩ := create_finds_match cn ps st data hnd
    refine ⟨id, ⟨fsSet st.docs (cn :: flatPairs ps, freshId st.counter) data, st.counter + 1⟩,
      ?_, ?_, ⟨v, hfm, hveq⟩, hget⟩
    · rw [firestore_create_unfold cn none ps st data]
      simp only [getDocumentIdByContent, hfm, Option.map_some', jsOfFoundId]
    · simp only [getDocumentIdByContent, hfm, Option.map_some']
  · rfl

/-- Witness for C5: instantiated at a fresh store and the record obj with
name john (the duplicate-content conjunct of the theorem is closed). -/
theorem c5_find_id_by_content_witness :
    (∃ (id : String) (st1 : FsState),
        Firestore.create ⟨"users", none, flatPairs []⟩ ⟨[], 0⟩
            (JSVal.obj [("name", JSVal.str "john")])
          = .ok ((true, JSVal.str id), st1)
        ∧ getDocumentIdByContent st1 (.doc ("users" :: flatPairs []) (freshId 0))
              (JSVal.obj [("name", JSVal.str "john")])
            = some id
        ∧ (∃ v, firstMatch (childEntries st1.docs ("users" :: flatPairs []))
              (JSVal.obj [("name", JSVal.str "john")]) = some (id, v)
            ∧ v = JSVal.obj [("name", JSVal.str "john")])
        ∧ fsGet st1.docs ("users" :: flatPairs [], id)
            = some (JSVal.obj [("name", JSVal.str "john")]))
    ∧ Firestore.create ⟨"users", none, []⟩ ⟨[((["users"], "dup-1"), JSVal.str "x")], 5⟩
        (JSVal.str "x")
      = .ok ((true, JSVal.str "dup-1"),
          ⟨[((["users"], "dup-1"), JSVal.str "x"), ((["users"], "auto-id-5"), JSVal.str "x")],
            6⟩) :=
  c5_find_id_by_content "users" [] ⟨[], 0⟩ (JSVal.obj [("name", JSVal.str "john")]) (by simp)

/-- Claim C10: Firestore.create resolves its reference with no id — so with the
freshly auto-generated document id — and behaves identically whatever uid the
instance was constructed with; its one store write lands on the auto id under
the resolved collection path, and the value stored at the document named by
any uid other than the fresh id is untouched. -/
theorem c10_create_ignores_uid (cn : String) (uid0 : Option String)
    (ps : List (String × String)) (st : FsState) (data : JSVal) (u : String)
    (hu : u ≠ freshId st.counter) :
    Firestore.create ⟨cn, uid0, flatPairs ps⟩ st data
      = Firestore.create ⟨cn, none, flatPairs ps⟩ st data
    ∧ (∃ res, Firestore.create ⟨cn, uid0, flatPairs ps⟩ st data
        = .ok (res, ⟨fsSet st.docs (cn :: flatPairs ps, freshId st.counter) data,
            st.counter + 1⟩))
    ∧ fsGet (fsSet st.docs (cn :: flatPairs ps, freshId st.counter) data)
        (cn :: flatPairs ps, u)
      = fsGet st.docs (cn :: flatPairs ps, u) := by
  refine ⟨rfl, ⟨_, firestore_create_unfold cn uid0 ps st data⟩, ?_⟩
  apply fsGet_fsSet_ne
  intro hk
  exact hu (congrArg Prod.snd hk)

/-- Witness for C10: an instance built with uid u1 still writes to the fresh
auto id and leaves the document named u1 alone. -/
theorem c10_create_ignores_uid_witness :
    Firestore.create ⟨"users", some "u1", flatPairs []⟩ ⟨[], 0⟩ (JSVal.str "v")
      = Firestore.create ⟨"users", none, flatPairs []⟩ ⟨[], 0⟩ (JSVal.str "v")
    ∧ (∃ res, Firestore.create ⟨"users", some "u1", flatPairs []⟩ ⟨[], 0⟩ (JSVal.str "v")
        = .ok (res, ⟨fsSet [] ("users" :: flatPairs [], freshId 0) (JSVal.str "v"), 1⟩))
    ∧ fsGet (fsSet [] ("users" :: flatPairs [], freshId 0) (JSVal.str "v"))
        ("users" :: flatPairs [], "u1")
      = fsGet [] ("users" :: flatPairs [], "u1") :=
  c10_create_ignores_uid "users" (some "u1") [] ⟨[], 0⟩ (JSVal.str "v") "u1" (by decide)

/-- Claim C1, evaluated at the failing input: when the collaborator call
succeeds, Authentication.createPhoneVerification returns the raw session
cookie request and Authentication.resetPassword the raw reset request — not
the two-element [true, payload] outcome array that the claim (and the JSDoc
of both methods) promises. -/
theorem c1_success_payload_not_wrapped :
    Authentication.createPhoneVerification (.ok (JSVal.str "cookie-1")) = JSVal.str "cookie-1"
    ∧ isOutcomePair (Authentication.createPhoneVerification (.ok (JSVal.str "cookie-1"))) = false
    ∧ Authentication.resetPassword (.ok JSVal.undefined) = JSVal.undefined
    ∧ isOutcomePair (Authentication.resetPassword (.ok JSVal.undefined)) = false :=
  ⟨rfl, rfl, rfl, rfl⟩

/-- Counterexample to claim C2: the Firestore wrapper methods have no
try/catch, so the NOT_FOUND error thrown by the document-store collaborator
when update addresses a missing document propagates out of Firestore.update
as a rejection instead of being converted to a returned [false, message]. -/
theorem c2_counterexample_update_propagates :
    Firestore.update ⟨"users", some "u1", []⟩ ⟨[], 0⟩ (JSVal.obj [])
      = .error "NOT_FOUND: No document to update" := rfl

/-- Claim C2 as amended: every async Authentication method and every RealTime
method catches the error thrown by the collaborator call and converts it to
[false, message] (RealTime.create only after its undefined-values guard
passes, and without touching the stored children); but the synchronous
Authentication.verificationEmail passes the collaborator rejection through,
and the Firestore methods have no try/catch, so a collaborator error —
here the NOT_FOUND thrown by update on a missing document — propagates. -/
theorem c2_amended_error_conversion (e uid : String) (json : JSVal)
    (data : List (String × JSVal)) (st : RtState) (st2 : FsState) (data2 : JSVal)
    (hu : hasUndefinedValue data = false)
    (hget : fsGet st2.docs (["users"], "u1") = none) :
    Authentication.createUser (.error e) = .arr [.bool false, .str e]
    ∧ Authentication.loginUser (.error e) = .arr [.bool false, .str e]
    ∧ Authentication.updateUser (.error e) = .arr [.bool false, .str e]
    ∧ Authentication.getUser (.error e) = .arr [.bool false, .str e]
    ∧ Authentication.deleteUser uid (.error e) = .arr [.bool false, .str e]
    ∧ Authentication.createPhoneVerification (.error e) = .arr [.bool false, .str e]
    ∧ Authentication.verifyPhoneVerification (.error e) = .arr [.bool false, .str e]
    ∧ Authentication.resetPassword (.error e) = .arr [.bool false, .str e]
    ∧ Authentication.getUsers (.error e) = .arr [.bool false, .str e]
    ∧ RealTime.create data st (.error e) = (.arr [.bool false, .str e], ⟨st.items, st.counter + 1⟩)
    ∧ RealTime.read st (.error e) = .arr [.bool false, .str e]
    ∧ RealTime.update uid json st (.error e) = (.arr [.bool false, .str e], st)
    ∧ RealTime.delete uid st (.error e) = (.arr [.bool false, .str e], st)
    ∧ Authentication.verificationEmail (.error e) = .error e
    ∧ Firestore.update ⟨"users", some "u1", []⟩ st2 data2
        = .error "NOT_FOUND: No document to update" := by
  refine ⟨rfl, rfl, rfl, rfl, rfl, rfl, rfl, rfl, rfl, ?_, rfl, rfl, rfl, rfl, ?_⟩
  · simp [RealTime.create, hu]
  · simp [Firestore.update, Firestore.getNestedCollectionReference, descendLoop, refDoc,
      refUpdate, hget]

/-- Witness for the amended C2: two representative conjuncts at concrete
inputs, with both hypotheses discharged concretely. -/
theorem c2_amended_error_conversion_witness :
    RealTime.create [("a", JSVal.str "b")] ⟨[], 0⟩ (.error "boom")
      = (.arr [.bool false, .str "boom"], ⟨[], 1⟩)
    ∧ Firestore.update ⟨"users", some "u1", []⟩ ⟨[], 3⟩ (JSVal.obj [])
        = .error "NOT_FOUND: No document to update" := by
  have h := c2_amended_error_conversion "boom" "u1" JSVal.null [("a", JSVal.str "b")]
    ⟨[], 0⟩ ⟨[], 3⟩ (JSVal.obj []) rfl rfl
  exact ⟨h.2.2.2.2.2.2.2.2.2.1, h.2.2.2.2.2.2.2.2.2.2.2.2.2.2⟩

/-- Claim C8, evaluated at the failing input: readAll (through readPaths) calls
listDocuments() on the reference produced by getNestedCollectionReference(),
which is a document reference (the method always ends in doc()); a document
reference has no listDocuments method, so both methods reject with a TypeError
instead of resolving to [true, mapping]. -/
theorem c8_readAll_rejects :
    Firestore.readAll ⟨"users", some "userA", []⟩ ⟨[((["users"], "u1"), JSVal.str "x")], 0⟩
      = .error "TypeError: reference.listDocuments is not a function"
    ∧ Firestore.readPaths ⟨"users", some "userA", []⟩ ⟨[((["users"], "u1"), JSVal.str "x")], 0⟩
      = .error "TypeError: reference.listDocuments is not a function" :=
  ⟨rfl, rfl⟩
